import Mathlib

set_option maxRecDepth 100000

/-!
Verification development for the vpnturbo VPN data plane.

Bytes are modelled as natural numbers (`Nat`); wherever the Go code
constructs bytes they are below 256 by construction, and theorems that
depend on byte bounds state them as hypotheses.  Machine integers
(`uint32`, `uint16`) are modelled as `Nat` with an explicit `% 2^32`
(resp. `% 2^16`) at the operations where Go wraps; operations that are
guarded against under/overflow in the source (such as `head - size`
under `head >= size`) use plain `Nat` arithmetic, which agrees with the
Go semantics under the guard.

The ChaCha20-Poly1305 primitive comes from the external library
`golang.org/x/crypto/chacha20poly1305`; it is not part of this
repository, so it is modelled by its contract: the transport and crypto
wrappers are parameterised over a pair of functions `Seal`/`Opn`
(`cipher.AEAD.Seal` and `cipher.AEAD.Open`), and the theorems that need
cryptographic properties take the idealised AEAD contract (authenticity
of every byte of nonce, ciphertext and associated data) as explicit
hypotheses.  A concrete instantiation (`toySeal`/`toyOpn`) shows those
hypotheses are satisfiable.
-/

namespace VpnTurbo

/-! ## internal/crypto.go -/

/-- NonceSize from crypto.go: chacha20poly1305.NonceSize = 12. -/
def NonceSize : Nat := 12

/-- Overhead from crypto.go: NonceSize + 16 (12-byte nonce + 16-byte tag). -/
def Overhead : Nat := NonceSize + 16

/-- TUNMTU from bufpool: 1500. -/
def TUNMTU : Nat := 1500

/-- Crypto.Encrypt from crypto.go.  The Go code draws a random 12-byte
nonce, calls `aead.Seal(nil, nonce, plaintext, aad)` and returns
`nonce ++ ciphertext`.  Randomness is externalised: the nonce is an
explicit argument, and the sealing function of the external AEAD is a
parameter. -/
def cryptoEncrypt (sealFn : List Nat → List Nat → List Nat → List Nat)
    (nonce plaintext aad : List Nat) : List Nat :=
  nonce ++ sealFn nonce plaintext aad

/-- Crypto.Decrypt from crypto.go: reject inputs shorter than Overhead
(28), split off the 12-byte nonce, and open the rest with the given
associated data.  `opn` is the opening function of the external AEAD
(`aead.Open`), returning `none` on authentication failure. -/
def cryptoDecrypt (opn : List Nat → List Nat → List Nat → Option (List Nat))
    (ciphertext aad : List Nat) : Option (List Nat) :=
  if ciphertext.length < Overhead then none
  else opn (ciphertext.take NonceSize) (ciphertext.drop NonceSize) aad

/-! ### A concrete ideal AEAD

`toySeal`/`toyOpn` instantiate the idealised AEAD contract used as the
hypotheses of the round-trip/tamper theorem, showing that contract is
satisfiable.  The "ciphertext" is the plaintext followed by a 16-entry
tag, every entry of which is an injective encoding of the whole
(nonce, plaintext, aad) triple; opening recomputes and compares. -/

/-- Ideal sealing: plaintext followed by a 16-entry tag binding the
nonce, the plaintext and the associated data. -/
def toySeal (nonce pt aad : List Nat) : List Nat :=
  pt ++ List.replicate 16 (Encodable.encode (nonce, pt, aad))

/-- Ideal opening: accept exactly the outputs of `toySeal` for this
nonce and associated data. -/
def toyOpn (nonce ct aad : List Nat) : Option (List Nat) :=
  if ct = toySeal nonce (ct.take (ct.length - 16)) aad then
    some (ct.take (ct.length - 16))
  else none

/-! ## internal/transport/anti_replay.go -/

/-- DefaultWindowSize from anti_replay.go. -/
def DefaultWindowSize : Nat := 1024

/-- State of an AntiReplayWindow: the `window` bitmap slice, the highest
accepted sequence `head`, and the configured `size`. -/
structure ARState where
  window : List Bool
  head : Nat
  size : Nat
  deriving DecidableEq, Repr

/-- NewAntiReplayWindow: size 0 selects the default of 1024; the bitmap
starts all-clear with head 0. -/
def newWindow (size : Nat) : ARState :=
  let s := if size = 0 then DefaultWindowSize else size
  { window := List.replicate s false, head := 0, size := s }

/-- The bit-clearing loop of Check for a window slide by `shift`
(`for i := 1; i <= shift; i++ { window[(head+i)%size] = false }`).
`head + i` cannot overflow uint32 because `head + shift = seq < 2^32`. -/
def clearBits (w : List Bool) (head size : Nat) : Nat → List Bool
  | 0 => w
  | n + 1 => (clearBits w head size n).set ((head + (n + 1)) % size) false

/-- AntiReplayWindow.Check from anti_replay.go, returning the accept
verdict and the updated window state.  Branches follow the source
line-by-line; `head - size` is guarded by `size ≤ head` so `Nat`
subtraction agrees with the uint32 subtraction in Go. -/
def arCheck (ar : ARState) (seq : Nat) : Bool × ARState :=
  if ar.head = 0 ∧ seq = 0 then
    (true, { ar with window := ar.window.set 0 true })
  else if ar.size ≤ ar.head ∧ seq < ar.head - ar.size then
    (false, ar)
  else if ar.head < seq then
    let shift := seq - ar.head
    let w := if ar.size ≤ shift then ar.window.map (fun _ => false)
             else clearBits ar.window ar.head ar.size shift
    (true, { ar with window := w.set (seq % ar.size) true, head := seq })
  else
    let index := seq % ar.size
    if ar.window.getD index false then (false, ar)
    else (true, { ar with window := ar.window.set index true })

/-! ## internal/transport/udp.go (first, SOCKS5-capable variant)

The transport functions below embed `UDPTransport.Write`,
`UDPTransport.Read` and one tick of `keepaliveLoop`.  Socket I/O is
externalised: a send is recorded as a `(payload, destination)` pair and
a receive takes the datagram bytes and the apparent source address as
arguments.  The `seqMutex`-protected fetch-and-increment of the shared
sequence counter is an atomic block in the source, so any concurrent
schedule is a sequence of `fetchInc` steps. -/

/-- Modulus of Go's uint32 (2^32). -/
def U32 : Nat := 4294967296

/-- PacketTypeData from udp.go. -/
def PacketTypeData : Nat := 1

/-- PacketTypeKeepalive from udp.go. -/
def PacketTypeKeepalive : Nat := 2

/-- PacketTypeKeepaliveAck from udp.go. -/
def PacketTypeKeepaliveAck : Nat := 3

/-- HeaderSize from udp.go: 1 type byte + 4 sequence bytes. -/
def HeaderSize : Nat := 5

/-- MaxPacketSize from udp.go:
1500 (MTU) - 20 (IP) - 8 (UDP) - HeaderSize - 1 (compression flag). -/
def MaxPacketSize : Nat := 1500 - 20 - 8 - HeaderSize - 1

/-- A UDP endpoint as the transport sees it: four IPv4 bytes (Go's
`IP.To4()`) and a port. -/
structure Addr where
  ip0 : Nat
  ip1 : Nat
  ip2 : Nat
  ip3 : Nat
  port : Nat
  deriving DecidableEq, Repr

/-- The error returns of `UDPTransport.Read` and `UDPTransport.Write`,
one constructor per `fmt.Errorf` site that the claims distinguish. -/
inductive RErr where
  /-- truncated SOCKS5 UDP packet / payload, or unsupported ATYP -/
  | socksErr : RErr
  /-- packet too short (fewer than HeaderSize bytes) -/
  | tooShort : RErr
  /-- unknown packet type -/
  | unknownType : RErr
  /-- packet too short for compression flag -/
  | shortFlag : RErr
  /-- replay attack detected -/
  | replay : RErr
  /-- AEAD authentication failure from Crypto.Decrypt -/
  | decryptFail : RErr
  /-- caller buffer too small for the decrypted payload -/
  | bufTooSmall : RErr
  deriving DecidableEq, Repr

/-- The value `UDPTransport.Read` hands back to its caller. -/
inductive ReadResult where
  /-- a DATA record was authenticated: plaintext, compressed flag, source -/
  | ok (plain : List Nat) (compressed : Bool) (src : Addr) : ReadResult
  /-- a keep-alive or keep-alive ACK was consumed; no plaintext -/
  | consumed (src : Addr) : ReadResult
  /-- an error return; the datagram is dropped -/
  | err (e : RErr) : ReadResult
  deriving DecidableEq, Repr

/-- The mutable fields of `UDPTransport` that `Write`, `Read` and the
keep-alive tick touch: the shared sequence counter, the anti-replay
window, the (possibly still unset) remote endpoint, and the SOCKS5
configuration fixed at construction. -/
structure TState where
  sequence : Nat
  replay : ARState
  remote : Option Addr
  isSocks5 : Bool
  socks5Remote : Addr
  socks5UDP : Addr
  deriving DecidableEq, Repr

/-- binary.BigEndian.PutUint32: the four big-endian bytes of a uint32. -/
def be32 (v : Nat) : List Nat :=
  [v / 2 ^ 24 % 256, v / 2 ^ 16 % 256, v / 2 ^ 8 % 256, v % 256]

/-- binary.BigEndian.PutUint16 of `uint16(v)`: Go truncates the int
port to 16 bits and writes two big-endian bytes. -/
def be16 (v : Nat) : List Nat :=
  [v % 2 ^ 16 / 256, v % 256]

/-- binary.BigEndian.Uint32 over bytes 1..5 of a parsed datagram. -/
def parseBE32 (b : List Nat) : Nat :=
  b.getD 1 0 * 2 ^ 24 + b.getD 2 0 * 2 ^ 16 + b.getD 3 0 * 2 ^ 8 + b.getD 4 0

/-- The 6-byte AAD built by `UDPTransport.Write`:
`[PacketTypeData] ++ sequence (big-endian) ++ compression flag`. -/
def mkAAD (seq : Nat) (isCompressed : Bool) : List Nat :=
  [PacketTypeData] ++ be32 seq ++ [if isCompressed then 1 else 0]

/-- The 10-byte SOCKS5 UDP-Associate envelope built by `Write` and
`keepaliveLoop`: RSV(2) FRAG(1) ATYP=IPv4(1), destination IPv4 and
big-endian destination port of the final VPN server. -/
def socksEnvelope (dst : Addr) : List Nat :=
  [0, 0, 0, 1, dst.ip0, dst.ip1, dst.ip2, dst.ip3] ++ be16 dst.port

/-- The `seqMutex`-protected block `seq := t.sequence; t.sequence++`:
returns the sequence to use and the incremented (uint32-wrapping)
counter. -/
def fetchInc (s : Nat) : Nat × Nat :=
  (s, (s + 1) % U32)

/-- UDPTransport.Write from udp.go: refuse when no remote endpoint is
set or the plaintext exceeds MaxPacketSize; otherwise assign a
sequence, build the 6-byte AAD, encrypt with it, emit
`AAD ++ Crypto.Encrypt(data, AAD)` — SOCKS5-wrapped and addressed to
the relay's UDP endpoint when SOCKS5 is enabled, plain to the remote
endpoint otherwise.  Returns the emitted `(payload, destination)` (or
`none` on rejection) and the updated state. -/
def writeModel (sealFn : List Nat → List Nat → List Nat → List Nat)
    (st : TState) (data : List Nat) (isCompressed : Bool)
    (nonce : List Nat) : Option (List Nat × Addr) × TState :=
  match st.remote with
  | none => (none, st)
  | some r =>
    if MaxPacketSize < data.length then (none, st)
    else
      let seq := (fetchInc st.sequence).1
      let st' := { st with sequence := (fetchInc st.sequence).2 }
      let aad := mkAAD seq isCompressed
      let packet := aad ++ cryptoEncrypt sealFn nonce data aad
      if st.isSocks5 then
        (some (socksEnvelope st.socks5Remote ++ packet, st.socks5UDP), st')
      else
        (some (packet, r), st')

/-- The SOCKS5 envelope validation and stripping at the top of
`UDPTransport.Read`: on a SOCKS5 transport, demand at least 10 bytes,
compute the payload offset from the ATYP byte (IPv4 10, domain
5+len+2, IPv6 22), demand the datagram reaches the offset, drop the
envelope and rewrite the apparent source to the configured VPN server.
Without SOCKS5 the datagram and source pass through unchanged.
`none` models the three error returns before the header parse. -/
def sockStrip (st : TState) (buf : List Nat) (src : Addr) :
    Option (List Nat × Addr) :=
  if st.isSocks5 then
    if buf.length < 10 then none
    else
      let atyp := buf.getD 3 0
      let off? : Option Nat :=
        if atyp = 1 then some 10
        else if atyp = 3 then some (5 + buf.getD 4 0 + 2)
        else if atyp = 4 then some 22
        else none
      match off? with
      | none => none
      | some off =>
        if buf.length < off then none
        else some (buf.drop off, st.socks5Remote)
  else some (buf, src)

/-- The body of `UDPTransport.Read` after envelope stripping and
remote-endpoint latching: parse the 5-byte header, echo keep-alives as
ACKs, consume ACKs, and for DATA run the replay check and then
`Crypto.Decrypt` with the first 6 bytes as AAD.  Returns the datagrams
sent in response, the caller-visible result, and the updated state
(`dlen` is the capacity of the caller's buffer). -/
def processDatagram (opn : List Nat → List Nat → List Nat → Option (List Nat))
    (st : TState) (b : List Nat) (a : Addr) (dlen : Nat) :
    List (List Nat × Addr) × ReadResult × TState :=
  if b.length < HeaderSize then ([], .err .tooShort, st)
  else
    let packetType := b.getD 0 0
    let seq := parseBE32 b
    if packetType = PacketTypeKeepalive then
      ([([PacketTypeKeepaliveAck] ++ be32 seq, a)], .consumed a, st)
    else if packetType = PacketTypeKeepaliveAck then
      ([], .consumed a, st)
    else if packetType ≠ PacketTypeData then
      ([], .err .unknownType, st)
    else if b.length < HeaderSize + 1 then
      ([], .err .shortFlag, st)
    else
      let chk := arCheck st.replay seq
      let st := { st with replay := chk.2 }
      if chk.1 = false then ([], .err .replay, st)
      else
        let aad := b.take (HeaderSize + 1)
        let isCompressed := b.getD 5 0 == 1
        let encrypted := b.drop (HeaderSize + 1)
        match cryptoDecrypt opn encrypted aad with
        | none => ([], .err .decryptFail, st)
        | some d =>
          if dlen < d.length then ([], .err .bufTooSmall, st)
          else ([], .ok d isCompressed a, st)

/-- UDPTransport.Read from udp.go: strip the SOCKS5 envelope (errors
there drop the datagram before anything else), latch the remote
endpoint when it is still unset, then process the datagram. -/
def readModel (opn : List Nat → List Nat → List Nat → Option (List Nat))
    (st : TState) (buf : List Nat) (src : Addr) (dlen : Nat) :
    List (List Nat × Addr) × ReadResult × TState :=
  match sockStrip st buf src with
  | none => ([], .err .socksErr, st)
  | some (b, a) =>
    let st := if st.remote = none then { st with remote := some a } else st
    processDatagram opn st b a dlen

/-- One ticker firing of `keepaliveLoop`: skip when no remote endpoint
is known; otherwise assign a sequence and emit the 5-byte keep-alive
`[PacketTypeKeepalive] ++ sequence` — SOCKS5-wrapped to the relay when
SOCKS5 is enabled (mirroring `Write`), plain to the remote endpoint
otherwise. -/
def keepaliveTick (st : TState) : Option (List Nat × Addr) × TState :=
  match st.remote with
  | none => (none, st)
  | some r =>
    let seq := (fetchInc st.sequence).1
    let st' := { st with sequence := (fetchInc st.sequence).2 }
    let packet := [PacketTypeKeepalive] ++ be32 seq
    if st.isSocks5 then
      (some (socksEnvelope st.socks5Remote ++ packet, st.socks5UDP), st')
    else
      (some (packet, r), st')

/-- The shared sequence counter after `n` records have been produced on
a fresh transport (Go zero value 0), each record taking its sequence
through `fetchInc`. -/
def counterState : Nat → Nat
  | 0 => 0
  | n + 1 => (fetchInc (counterState n)).2

/-- The sequence number carried by the `n`-th record (0-based) produced
on a fresh transport. -/
def recordSeq (n : Nat) : Nat :=
  (fetchInc (counterState n)).1

/-! ## Key loading (cmd/server/main.go and cmd/client/main.go) -/

/-- One hexadecimal character, as Go's `encoding/hex` accepts them:
ASCII digits, lowercase a-f, uppercase A-F. -/
def hexVal (c : Nat) : Option Nat :=
  if 48 ≤ c ∧ c ≤ 57 then some (c - 48)
  else if 97 ≤ c ∧ c ≤ 102 then some (c - 87)
  else if 65 ≤ c ∧ c ≤ 70 then some (c - 55)
  else none

/-- hex.DecodeString over ASCII codes: consume characters two at a
time; any non-hex character or odd length is an error. -/
def hexDecode : List Nat → Option (List Nat)
  | [] => some []
  | [_] => none
  | c1 :: c2 :: rest =>
    match hexVal c1, hexVal c2, hexDecode rest with
    | some hi, some lo, some r => some ((16 * hi + lo) :: r)
    | _, _, _ => none

/-- loadOrGenerateKey from cmd/server/main.go, on the path where a key
file is given: the file contents are accepted only when they are
exactly 32 bytes; any other length is an error. -/
def serverLoadKey (fileBytes : List Nat) : Option (List Nat) :=
  if fileBytes.length = 32 then some fileBytes else none

/-- The key-loading block of cmd/client/main.go: a 64-byte file is
hex-decoded (failing on non-hex content, then checked to decode to 32
bytes); a 32-byte file is used as-is; any other length is an error. -/
def clientLoadKey (fileBytes : List Nat) : Option (List Nat) :=
  if fileBytes.length = 64 then
    match hexDecode fileBytes with
    | none => none
    | some key => if key.length = 32 then some key else none
  else if fileBytes.length = 32 then some fileBytes
  else none

/-! ## Concrete states and inputs used by witnesses and counterexamples -/

/-- A sample peer endpoint. -/
def addrA : Addr := ⟨192, 168, 1, 100, 8080⟩

/-- A sample datagram source endpoint. -/
def addrB : Addr := ⟨10, 1, 2, 3, 40000⟩

/-- A plain (non-SOCKS5) transport with the remote endpoint set, as
after client construction: fresh counter and fresh default window. -/
def stPlain : TState :=
  { sequence := 0, replay := newWindow 0, remote := some addrA,
    isSocks5 := false, socks5Remote := addrA, socks5UDP := addrA }

/-- A transport with the remote endpoint still unset, as on the server
before the first datagram arrives. -/
def stFresh : TState :=
  { stPlain with remote := none }

/-- A SOCKS5-enabled transport: the final VPN server and the relay's
UDP endpoint differ. -/
def stSocks : TState :=
  { sequence := 0, replay := newWindow 0, remote := some addrA,
    isSocks5 := true, socks5Remote := addrA, socks5UDP := ⟨127, 0, 0, 1, 1080⟩ }

/-- An AEAD opening function that always fails authentication. -/
def opnFail (_ _ _ : List Nat) : Option (List Nat) := none

/-- An AEAD sealing function producing a 16-byte all-zero tag. -/
def sealZeros (_ _ _ : List Nat) : List Nat := List.replicate 16 0

/-- A DATA datagram with sequence 0 and a 28-byte AEAD body. -/
def dataSeq0 : List Nat := [1, 0, 0, 0, 0, 0] ++ List.replicate 28 0

/-! ## Theorems -/

/-! ### List helpers -/

/-- Reading an index just overwritten. -/
theorem getD_set_self {α : Type} (l : List α) (i : Nat) (bb d : α)
    (h : i < l.length) : (l.set i bb).getD i d = bb := by
  simp [List.getD_eq_getElem?_getD, List.getElem?_set_self, h]

/-- Reading inside a replicate. -/
theorem getD_replicate {α : Type} (n i : Nat) (x d : α) (h : i < n) :
    (List.replicate n x).getD i d = x := by
  simp [List.getD_eq_getElem?_getD, List.getElem?_replicate, h]

/-- Taking a prefix of known length off a concatenation. -/
theorem take_append_of_length {α : Type} (l₁ l₂ : List α) (k : Nat)
    (h : l₁.length = k) : (l₁ ++ l₂).take k = l₁ := by
  subst h; exact List.take_left l₁ l₂

/-- Dropping a prefix of known length off a concatenation. -/
theorem drop_append_of_length {α : Type} (l₁ l₂ : List α) (k : Nat)
    (h : l₁.length = k) : (l₁ ++ l₂).drop k = l₂ := by
  subst h; exact List.drop_left l₁ l₂

/-! ### The concrete ideal AEAD satisfies the idealised contract -/

/-- toySeal output length: plaintext plus a 16-entry tag. -/
theorem toySeal_length (n pt aad : List Nat) :
    (toySeal n pt aad).length = pt.length + 16 := by
  simp [toySeal]

/-- The plaintext recovered from a toySeal output. -/
theorem toySeal_take (n pt aad : List Nat) :
    (toySeal n pt aad).take ((toySeal n pt aad).length - 16) = pt := by
  rw [toySeal_length, Nat.add_sub_cancel]
  exact take_append_of_length _ _ _ rfl

/-- Two equal-plaintext toySeal outputs agree only when the whole
(nonce, plaintext, aad) triple agrees. -/
theorem toySeal_inj (n n' pt aad aad' : List Nat)
    (h : toySeal n pt aad = toySeal n' pt aad') : n = n' ∧ aad = aad' := by
  unfold toySeal at h
  have h2 := List.append_cancel_left h
  have h3 : Encodable.encode (n, pt, aad) = Encodable.encode (n', pt, aad') :=
    List.replicate_right_injective (by decide) h2
  have h4 := Encodable.encode_injective h3
  exact ⟨congrArg (fun t => t.1) h4, congrArg (fun t => t.2.2) h4⟩

/-- Ideal completeness: opening a genuine seal returns the plaintext. -/
theorem toyOpn_seal (n pt aad : List Nat) :
    toyOpn n (toySeal n pt aad) aad = some pt := by
  simp [toyOpn, toySeal_take]

/-- Ideal nonce binding: a modified nonce fails authentication. -/
theorem toyOpn_nonce (n n' pt aad : List Nat) (hne : n' ≠ n) :
    toyOpn n' (toySeal n pt aad) aad = none := by
  simp only [toyOpn, toySeal_take]
  rw [if_neg]
  intro heq
  exact hne ((toySeal_inj n n' pt aad aad heq).1).symm

/-- Ideal AAD binding: modified associated data fails authentication. -/
theorem toyOpn_aad (n pt aad aad' : List Nat) (hne : aad' ≠ aad) :
    toyOpn n (toySeal n pt aad) aad' = none := by
  simp only [toyOpn, toySeal_take]
  rw [if_neg]
  intro heq
  exact hne ((toySeal_inj n n pt aad aad' heq).2).symm

/-- Ideal ciphertext binding: changing any single entry of a toySeal
output (body or tag) fails authentication. -/
theorem toyOpn_tamper (n pt aad : List Nat) (i bb : Nat)
    (hi : i < (toySeal n pt aad).length)
    (hbb : bb ≠ (toySeal n pt aad).getD i 0) :
    toyOpn n ((toySeal n pt aad).set i bb) aad = none := by
  rw [toySeal_length] at hi
  by_cases hip : i < pt.length
  · -- tampering inside the ciphertext body
    have hset : (toySeal n pt aad).set i bb
        = pt.set i bb ++ List.replicate 16 (Encodable.encode (n, pt, aad)) := by
      unfold toySeal; rw [List.set_append, if_pos hip]
    have hold : (toySeal n pt aad).getD i 0 = pt.getD i 0 := by
      unfold toySeal; exact List.getD_append _ _ _ i hip
    have htake : ((toySeal n pt aad).set i bb).take
        (((toySeal n pt aad).set i bb).length - 16) = pt.set i bb := by
      rw [hset, List.length_append, List.length_set, List.length_replicate,
        Nat.add_sub_cancel]
      exact take_append_of_length _ _ _ (List.length_set pt i bb)
    simp only [toyOpn]
    rw [htake, hset]
    rw [if_neg]
    intro heq
    unfold toySeal at heq
    have h2 := List.append_cancel_left heq
    have h3 : Encodable.encode (n, pt, aad)
        = Encodable.encode (n, pt.set i bb, aad) :=
      List.replicate_right_injective (by decide) h2
    have h4 := Encodable.encode_injective h3
    have h5 : pt = pt.set i bb := congrArg (fun t => t.2.1) h4
    have h6 : pt.getD i 0 = bb := by
      conv_lhs => rw [h5]
      exact getD_set_self pt i bb 0 hip
    rw [hold] at hbb
    exact hbb h6.symm
  · -- tampering inside the tag
    have hj : i - pt.length < 16 := by omega
    have hple : pt.length ≤ i := by omega
    have hset : (toySeal n pt aad).set i bb
        = pt ++ (List.replicate 16 (Encodable.encode (n, pt, aad))).set
            (i - pt.length) bb := by
      unfold toySeal; rw [List.set_append, if_neg hip]
    have hold : (toySeal n pt aad).getD i 0
        = Encodable.encode (n, pt, aad) := by
      unfold toySeal
      rw [List.getD_append_right _ _ _ _ hple]
      exact getD_replicate 16 (i - pt.length) _ 0 hj
    have htake : ((toySeal n pt aad).set i bb).take
        (((toySeal n pt aad).set i bb).length - 16) = pt := by
      rw [hset, List.length_append, List.length_set, List.length_replicate,
        Nat.add_sub_cancel]
      exact take_append_of_length _ _ _ rfl
    simp only [toyOpn]
    rw [htake, hset]
    rw [if_neg]
    intro heq
    unfold toySeal at heq
    have h2 := List.append_cancel_left heq
    have h3 : bb = Encodable.encode (n, pt, aad) := by
      have h5 : ((List.replicate 16 (Encodable.encode (n, pt, aad))).set
            (i - pt.length) bb).getD (i - pt.length) 0
          = (List.replicate 16 (Encodable.encode (n, pt, aad))).getD
            (i - pt.length) 0 := by rw [h2]
      rw [getD_set_self _ _ _ _ (by rw [List.length_replicate]; exact hj),
        getD_replicate 16 (i - pt.length) _ 0 hj] at h5
      exact h5
    rw [hold] at hbb
    exact hbb h3

/-- C1.  For a 32-byte key (folded into the AEAD functions), every
plaintext P of size 1..MTU, every 6-byte header H and every 12-byte
nonce: Crypto.Decrypt inverts Crypto.Encrypt, and changing any byte of
the nonce, ciphertext body, or tag — or supplying different associated
data — makes Crypto.Decrypt fail.  The external ChaCha20-Poly1305
primitive enters through its idealised contract (hypotheses hlen,
hopen, hnonce, haad, hct); the theorem proves the wrapper's nonce
framing and length handling preserve it.  The contract is satisfiable:
see the toySeal/toyOpn lemmas and the witness. -/
theorem crypto_roundtrip_tamper
    (sealFn : List Nat → List Nat → List Nat → List Nat)
    (opn : List Nat → List Nat → List Nat → Option (List Nat))
    (hlen : ∀ n pt aad, (sealFn n pt aad).length = pt.length + 16)
    (hopen : ∀ n pt aad, opn n (sealFn n pt aad) aad = some pt)
    (hnonce : ∀ n n' pt aad, n' ≠ n → opn n' (sealFn n pt aad) aad = none)
    (haad : ∀ n pt aad aad', aad' ≠ aad → opn n (sealFn n pt aad) aad' = none)
    (hct : ∀ n pt aad i bb, i < (sealFn n pt aad).length →
      bb ≠ (sealFn n pt aad).getD i 0 →
      opn n ((sealFn n pt aad).set i bb) aad = none)
    (P H nonce : List Nat)
    (_hP1 : 1 ≤ P.length) (_hP2 : P.length ≤ TUNMTU)
    (_hH : H.length = 6) (hn : nonce.length = 12) :
    cryptoDecrypt opn (cryptoEncrypt sealFn nonce P H) H = some P
    ∧ (∀ i bb, i < (cryptoEncrypt sealFn nonce P H).length →
        bb ≠ (cryptoEncrypt sealFn nonce P H).getD i 0 →
        cryptoDecrypt opn ((cryptoEncrypt sealFn nonce P H).set i bb) H = none)
    ∧ (∀ H', H' ≠ H →
        cryptoDecrypt opn (cryptoEncrypt sealFn nonce P H) H' = none) := by
  have hslen : (sealFn nonce P H).length = P.length + 16 := hlen nonce P H
  have helen : (cryptoEncrypt sealFn nonce P H).length = P.length + 28 := by
    simp only [cryptoEncrypt, List.length_append, hn, hslen]; omega
  have htk : (cryptoEncrypt sealFn nonce P H).take NonceSize = nonce :=
    take_append_of_length _ _ _ hn
  have hdr : (cryptoEncrypt sealFn nonce P H).drop NonceSize = sealFn nonce P H :=
    drop_append_of_length _ _ _ hn
  refine ⟨?_, ?_, ?_⟩
  · simp only [cryptoDecrypt, helen, Overhead, NonceSize]
    rw [if_neg (by omega)]
    have htk' := htk; have hdr' := hdr
    simp only [NonceSize] at htk' hdr'
    rw [htk', hdr']
    exact hopen nonce P H
  · intro i bb hi hbb
    rw [helen] at hi
    have hlset : ((cryptoEncrypt sealFn nonce P H).set i bb).length
        = P.length + 28 := by rw [List.length_set, helen]
    by_cases hin : i < 12
    · -- tampering the transmitted nonce
      have hset : (cryptoEncrypt sealFn nonce P H).set i bb
          = nonce.set i bb ++ sealFn nonce P H := by
        unfold cryptoEncrypt; rw [List.set_append, if_pos (by omega)]
      have hold : (cryptoEncrypt sealFn nonce P H).getD i 0 = nonce.getD i 0 := by
        unfold cryptoEncrypt; exact List.getD_append _ _ _ i (by omega)
      simp only [cryptoDecrypt, hlset, Overhead, NonceSize]
      rw [if_neg (by omega), hset,
        take_append_of_length _ _ _ (by rw [List.length_set]; exact hn),
        drop_append_of_length _ _ _ (by rw [List.length_set]; exact hn)]
      apply hnonce
      intro heq
      have : (nonce.set i bb).getD i 0 = nonce.getD i 0 := by rw [heq]
      rw [getD_set_self _ _ _ _ (by omega)] at this
      rw [hold] at hbb
      exact hbb this
    · -- tampering the AEAD output (ciphertext body or tag)
      have hple : (12 : Nat) ≤ i := by omega
      have hset : (cryptoEncrypt sealFn nonce P H).set i bb
          = nonce ++ (sealFn nonce P H).set (i - 12) bb := by
        unfold cryptoEncrypt; rw [List.set_append, if_neg (by omega), hn]
      have hold : (cryptoEncrypt sealFn nonce P H).getD i 0
          = (sealFn nonce P H).getD (i - 12) 0 := by
        unfold cryptoEncrypt
        rw [List.getD_append_right _ _ _ _ (by omega), hn]
      simp only [cryptoDecrypt, hlset, Overhead, NonceSize]
      rw [if_neg (by omega), hset,
        take_append_of_length _ _ _ hn, drop_append_of_length _ _ _ hn]
      apply hct
      · omega
      · rw [hold] at hbb; exact hbb
  · intro H' hne
    simp only [cryptoDecrypt, helen, Overhead, NonceSize]
    rw [if_neg (by omega)]
    have htk' := htk; have hdr' := hdr
    simp only [NonceSize] at htk' hdr'
    rw [htk', hdr']
    exact haad nonce P H H' hne

/-- C1 witness: the theorem applied to the concrete ideal AEAD, the
plaintext [7], a concrete 6-byte header and the all-zero nonce. -/
theorem crypto_roundtrip_tamper_witness :
    cryptoDecrypt toyOpn
      (cryptoEncrypt toySeal (List.replicate 12 0) [7] [1, 0, 0, 0, 1, 0])
      [1, 0, 0, 0, 1, 0] = some [7] :=
  (crypto_roundtrip_tamper toySeal toyOpn toySeal_length toyOpn_seal
    toyOpn_nonce toyOpn_aad toyOpn_tamper [7] [1, 0, 0, 0, 1, 0]
    (List.replicate 12 0) (by decide) (by decide) (by decide) (by decide)).1

/-- The counter after n fetch-and-increments of the uint32 sequence
counter is n reduced modulo 2^32. -/
theorem counterState_eq (n : Nat) : counterState n = n % U32 := by
  induction n with
  | zero => rfl
  | succ n ih =>
    simp only [counterState, fetchInc, ih, U32]
    omega

/-- Re-encoding a parsed big-endian sequence reproduces the original
four bytes, provided they are bytes (below 256). -/
theorem be32_parseBE32 (b : List Nat)
    (h1 : b.getD 1 0 < 256) (h2 : b.getD 2 0 < 256)
    (h3 : b.getD 3 0 < 256) (h4 : b.getD 4 0 < 256) :
    be32 (parseBE32 b) = [b.getD 1 0, b.getD 2 0, b.getD 3 0, b.getD 4 0] := by
  simp only [be32, parseBE32, List.cons.injEq, and_true]
  refine ⟨?_, ?_, ?_, ?_⟩ <;> omega

/-- The datagram processing after the latch never writes the remote
endpoint: only Read's latch (and SetRemoteAddr) do. -/
theorem processDatagram_remote
    (opn : List Nat → List Nat → List Nat → Option (List Nat))
    (st : TState) (b : List Nat) (a : Addr) (dlen : Nat) :
    (processDatagram opn st b a dlen).2.2.remote = st.remote := by
  unfold processDatagram
  dsimp only
  repeat' split
  all_goals rfl

/-- C5.  A received datagram whose (envelope-stripped) first byte is
0x02 makes Read emit exactly one 5-byte datagram — type 0x03 followed
by the same four big-endian sequence bytes — addressed to the
datagram's (rewritten) source; the caller gets no plaintext
(`consumed`), and the only state change is the remote-endpoint latch:
the replay window and the sequence counter are untouched. -/
theorem keepalive_echo_contract
    (opn : List Nat → List Nat → List Nat → Option (List Nat))
    (st : TState) (buf : List Nat) (src : Addr) (dlen : Nat)
    (b : List Nat) (a : Addr)
    (hstrip : sockStrip st buf src = some (b, a))
    (hlen : 5 ≤ b.length) (htype : b.getD 0 0 = 2)
    (h1 : b.getD 1 0 < 256) (h2 : b.getD 2 0 < 256)
    (h3 : b.getD 3 0 < 256) (h4 : b.getD 4 0 < 256) :
    readModel opn st buf src dlen =
      ([([3, b.getD 1 0, b.getD 2 0, b.getD 3 0, b.getD 4 0], a)],
       .consumed a,
       if st.remote = none then { st with remote := some a } else st)
    ∧ (readModel opn st buf src dlen).2.2.replay = st.replay
    ∧ (readModel opn st buf src dlen).2.2.sequence = st.sequence := by
  have hmain : readModel opn st buf src dlen =
      ([([3, b.getD 1 0, b.getD 2 0, b.getD 3 0, b.getD 4 0], a)],
       .consumed a,
       if st.remote = none then { st with remote := some a } else st) := by
    simp only [readModel, hstrip]
    unfold processDatagram
    rw [if_neg (by simp only [HeaderSize]; omega)]
    rw [if_pos (by simp only [PacketTypeKeepalive]; exact htype)]
    rw [be32_parseBE32 b h1 h2 h3 h4]
    split <;> rfl
  refine ⟨hmain, ?_, ?_⟩ <;> rw [hmain] <;> split <;> rfl

/-- C5 witness: a concrete keep-alive with sequence 7 on the plain
transport. -/
theorem keepalive_echo_contract_witness :
    (readModel opnFail stPlain [2, 0, 0, 0, 7] addrB 0).1
      = [([3, 0, 0, 0, 7], addrB)]
    ∧ (readModel opnFail stPlain [2, 0, 0, 0, 7] addrB 0).2.1
      = .consumed addrB := by
  have h := keepalive_echo_contract opnFail stPlain [2, 0, 0, 0, 7] addrB 0
    [2, 0, 0, 0, 7] addrB (by decide) (by decide) (by decide)
    (by decide) (by decide) (by decide) (by decide)
  rw [h.1]
  exact ⟨rfl, rfl⟩

/-- C2.  For every reachable anti-replay state and every sequence s
whose window bit is set, a second Check(s) is claimed to return false.
The code violates this at s = 0: the `head == 0 && seq == 0`
first-packet fast path sets the bit and accepts without ever testing
it, so a fresh window accepts sequence 0 twice.  This contradicts both
the spec and Check's own doc comment, which promise that a replay
within the window returns false. -/
theorem arCheck_seq0_replay_accepted :
    (arCheck (newWindow 0) 0).1 = true ∧
    (arCheck (arCheck (newWindow 0) 0).2 0).1 = true := by
  constructor <;> decide

/-- C3 counterexample.  The claim says Write rejects any plaintext
longer than 1500-20-8-6-28 = 1438 bytes.  The code compares against
MaxPacketSize = 1500-20-8-5-1 = 1466, so a 1439-byte plaintext — over
the claimed budget — is accepted and emitted. -/
theorem write_budget_counterexample :
    1500 - 20 - 8 - 6 - 28 < 1439 ∧
    ((writeModel (fun _ _ _ => []) stPlain (List.replicate 1439 0) false
        []).1).isSome = true := by
  constructor <;> decide

/-- C6 counterexample.  The claim says both client and server accept a
key file of exactly 64 ASCII hex characters decoding to 32 bytes.  The
file of 64 ASCII zeros is such a file (it hex-decodes to 32 zero
bytes), yet the server's loadOrGenerateKey rejects it: the server path
only accepts exactly 32 raw bytes. -/
theorem server_hex_key_counterexample :
    hexDecode (List.replicate 64 48) = some (List.replicate 32 0) ∧
    serverLoadKey (List.replicate 64 48) = none := by
  constructor <;> decide

/-- C7 counterexample.  The claim says the unset remote endpoint stays
unset when the incoming datagram is shorter than the 5-byte header.
In the code the latch happens before the length check: a 3-byte
datagram is reported as too short, yet the remote endpoint has already
been latched to its source. -/
theorem latch_short_datagram_counterexample :
    (readModel opnFail stFresh [1, 2, 3] addrB 10).2.2.remote = some addrB ∧
    (readModel opnFail stFresh [1, 2, 3] addrB 10).2.1 = .err .tooShort := by
  constructor <;> decide

/-- C8.  The claim (and the spec) require the type-0x03 keep-alive ACK
to travel inside the 10-byte SOCKS5 envelope to the relay's UDP
endpoint whenever SOCKS5 is enabled.  On a SOCKS5 transport receiving
a keep-alive with sequence 5, the code emits the bare 5-byte ACK and
addresses it to the final VPN server, not to the relay: Read's ACK
path has no SOCKS5 wrapping — in contrast to the periodic keep-alive
of keepaliveLoop, which does wrap and send to the relay. -/
theorem keepalive_ack_unwrapped_bug :
    (readModel opnFail stSocks
        ([0, 0, 0, 1, 9, 9, 9, 9, 0, 53] ++ [2, 0, 0, 0, 5]) addrB 100).1 =
      [([3, 0, 0, 0, 5], stSocks.socks5Remote)] ∧
    stSocks.socks5Remote ≠ stSocks.socks5UDP ∧
    (keepaliveTick stSocks).1 =
      some (socksEnvelope stSocks.socks5Remote ++ [2, 0, 0, 0, 0],
        stSocks.socks5UDP) := by
  refine ⟨by decide, by decide, by decide⟩

/-- C9 counterexample.  The claim says any later record carries a
strictly greater 32-bit sequence, so no two records share one.  The
counter is a wrapping uint32: record number 2^32 carries the same
sequence (0) as record number 0. -/
theorem sequence_wraparound_counterexample :
    recordSeq 4294967296 = recordSeq 0 ∧ (4294967296 : Nat) ≠ 0 := by
  refine ⟨?_, by decide⟩
  simp only [recordSeq, fetchInc, counterState_eq]
  decide

/-- The SOCKS5 UDP-Associate envelope is always 10 bytes. -/
theorem socksEnvelope_length (dst : Addr) : (socksEnvelope dst).length = 10 := by
  simp [socksEnvelope, be16]

/-- The DATA header/AAD is always 6 bytes. -/
theorem mkAAD_length (seq : Nat) (c : Bool) : (mkAAD seq c).length = 6 := by
  simp [mkAAD, be32]

/-- The post-latch state keeps the replay window of the pre-latch
state: the latch only writes the remote endpoint. -/
theorem latch_replay (st : TState) (a : Addr) :
    (if st.remote = none then { st with remote := some a } else st).replay
      = st.replay := by
  split <;> rfl

/-- C4.  Send side: every datagram emitted by Write consists of an
optional 10-byte SOCKS5 envelope followed by the 6-byte header and the
AEAD output, and the first 6 bytes after the envelope are exactly the
AAD `mkAAD` that Write passed to Crypto.Encrypt.  Receive side: for
any stripped datagram that parses as DATA and passes the replay check,
Read's outcome is exactly Crypto.Decrypt applied to the bytes after
offset 6 with the first 6 bytes as AAD. -/
theorem data_header_is_aad
    (sealFn : List Nat → List Nat → List Nat → List Nat)
    (opn : List Nat → List Nat → List Nat → Option (List Nat))
    (st : TState) (data : List Nat) (c : Bool) (nonce : List Nat)
    (pkt : List Nat) (dst : Addr)
    (hw : (writeModel sealFn st data c nonce).1 = some (pkt, dst)) :
    ((if st.isSocks5 then pkt.drop 10 else pkt)
        = mkAAD st.sequence c
            ++ cryptoEncrypt sealFn nonce data (mkAAD st.sequence c)
      ∧ (if st.isSocks5 then pkt.drop 10 else pkt).take 6
        = mkAAD st.sequence c)
    ∧ (∀ (st₂ : TState) (buf : List Nat) (src : Addr) (dlen : Nat)
        (b : List Nat) (a : Addr),
        sockStrip st₂ buf src = some (b, a) →
        b.getD 0 0 = 1 → 6 ≤ b.length →
        (arCheck st₂.replay (parseBE32 b)).1 = true →
        (readModel opn st₂ buf src dlen).2.1 =
          match cryptoDecrypt opn (b.drop 6) (b.take 6) with
          | none => .err .decryptFail
          | some d =>
            if dlen < d.length then .err .bufTooSmall
            else .ok d (b.getD 5 0 == 1) a) := by
  constructor
  · -- send side
    have hpkt : (if st.isSocks5 then pkt.drop 10 else pkt)
        = mkAAD st.sequence c
            ++ cryptoEncrypt sealFn nonce data (mkAAD st.sequence c) := by
      cases hr : st.remote with
      | none => simp [writeModel, hr] at hw
      | some r =>
        by_cases hl : MaxPacketSize < data.length
        · simp [writeModel, hr, hl] at hw
        · simp only [writeModel, hr, hl, if_false] at hw
          split at hw
          next hsock =>
            simp only [Option.some.injEq, Prod.mk.injEq] at hw
            rw [if_pos hsock, ← hw.1]
            exact drop_append_of_length _ _ _ (socksEnvelope_length _)
          next hsock =>
            simp only [Option.some.injEq, Prod.mk.injEq] at hw
            rw [if_neg hsock, ← hw.1]
            rfl
    refine ⟨hpkt, ?_⟩
    rw [hpkt]
    exact take_append_of_length _ _ _ (mkAAD_length _ _)
  · -- receive side
    intro st₂ buf src dlen b a hs ht hlen hchk
    simp only [readModel, hs]
    unfold processDatagram
    rw [if_neg (by simp only [HeaderSize]; omega)]
    rw [if_neg (by rw [ht]; decide)]
    rw [if_neg (by rw [ht]; decide)]
    rw [if_neg (by rw [ht]; decide)]
    rw [if_neg (by simp only [HeaderSize]; omega)]
    rw [latch_replay st₂ a]
    rw [if_neg (by simp [hchk])]
    norm_num [HeaderSize]
    cases hcd : cryptoDecrypt opn (b.drop 6) (b.take 6) with
    | none => simp [hcd]
    | some d =>
      simp only [hcd]
      split <;> rfl

/-- C4 witness: a concrete Write on the plain transport; the emitted
datagram's first 6 bytes are the AAD. -/
theorem data_header_is_aad_witness :
    (mkAAD 0 false
        ++ cryptoEncrypt sealZeros (List.replicate 12 0) [5] (mkAAD 0 false)).take 6
      = mkAAD 0 false := by
  have h := data_header_is_aad sealZeros opnFail stPlain [5] false
    (List.replicate 12 0)
    (mkAAD 0 false
      ++ cryptoEncrypt sealZeros (List.replicate 12 0) [5] (mkAAD 0 false))
    addrA (by decide)
  simpa using h.1.2

/-- A successful hex decode consumes two characters per output byte. -/
theorem hexDecode_length :
    ∀ (s k : List Nat), hexDecode s = some k → s.length = 2 * k.length
  | [], k, h => by
    simp [hexDecode] at h
    subst h
    rfl
  | [_], k, h => by simp [hexDecode] at h
  | c1 :: c2 :: rest, k, h => by
    simp only [hexDecode] at h
    cases h1 : hexVal c1 <;> cases h2 : hexVal c2 <;>
      cases h3 : hexDecode rest <;> simp [h1, h2, h3] at h
    case some.some.some hi lo r =>
      have ih := hexDecode_length rest r h3
      subst h
      simp [List.length]
      omega

/-- C6 amended.  Client startup accepts a key file exactly when it is
32 raw bytes, or 64 characters of valid hex (which then necessarily
decode to 32 bytes); server startup accepts only exactly 32 raw bytes
— it has no hex path, so a 64-character hex file is a startup error on
the server (see the counterexample). -/
theorem keyfile_accept_amended (b : List Nat) :
    ((serverLoadKey b).isSome = true ↔ b.length = 32)
    ∧ ((clientLoadKey b).isSome = true ↔
        b.length = 32 ∨ (b.length = 64 ∧ (hexDecode b).isSome = true)) := by
  constructor
  · simp only [serverLoadKey]
    split <;> simp_all
  · by_cases h64 : b.length = 64
    · simp only [clientLoadKey, h64, if_true]
      cases hd : hexDecode b with
      | none => simp [h64]
      | some key =>
        have hk : key.length = 32 := by
          have := hexDecode_length b key hd
          omega
        simp [hk, h64]
    · by_cases h32 : b.length = 32
      · simp [clientLoadKey, h64, h32]
      · simp [clientLoadKey, h64, h32]

/-- C6 witness: the client accepts the 64-character hex file of ASCII
zeros; the server accepts a 32-byte raw file. -/
theorem keyfile_accept_amended_witness :
    (clientLoadKey (List.replicate 64 48)).isSome = true
    ∧ (serverLoadKey (List.replicate 32 7)).isSome = true :=
  ⟨(keyfile_accept_amended (List.replicate 64 48)).2.mpr
      (Or.inr ⟨by decide, by decide⟩),
    (keyfile_accept_amended (List.replicate 32 7)).1.mpr (by decide)⟩

/-- C7 amended.  On a transport whose remote endpoint is unset, the
endpoint is latched from the first incoming datagram that survives
SOCKS5 envelope processing — including datagrams shorter than the
5-byte header or with an unknown packet type, since the latch precedes
those checks; it remains unset exactly when the SOCKS5 envelope is
invalid or truncated (the only error returns before the latch). -/
theorem remote_latch_amended
    (opn : List Nat → List Nat → List Nat → Option (List Nat))
    (st : TState) (buf : List Nat) (src : Addr) (dlen : Nat)
    (h0 : st.remote = none) :
    (sockStrip st buf src = none →
      (readModel opn st buf src dlen).2.2.remote = none)
    ∧ (∀ b a, sockStrip st buf src = some (b, a) →
        (readModel opn st buf src dlen).2.2.remote = some a) := by
  constructor
  · intro hs
    simp only [readModel, hs, h0]
  · intro b a hs
    simp only [readModel, hs, h0, if_pos]
    rw [processDatagram_remote]

/-- C7 witness: an unknown-type datagram (first byte 9) still latches
the remote endpoint on the fresh transport. -/
theorem remote_latch_amended_witness :
    (readModel opnFail stFresh [9, 0, 0, 0, 0] addrB 0).2.2.remote
      = some addrB :=
  (remote_latch_amended opnFail stFresh [9, 0, 0, 0, 0] addrB 0
    (by decide)).2 [9, 0, 0, 0, 0] addrB (by decide)

/-- C3 amended.  Write rejects a plaintext exactly when the remote
endpoint is unset or the plaintext exceeds MaxPacketSize =
1500 - 20 - 8 - 5 - 1 = 1466 bytes (the code's budget subtracts its
5-byte header plus the 1-byte compression flag, not the 6+28-byte
header-plus-AEAD overhead, and does not shrink when SOCKS5 is
enabled); consequently every emitted datagram carries a plaintext of
at most 1466 bytes. -/
theorem write_budget_amended
    (sealFn : List Nat → List Nat → List Nat → List Nat)
    (st : TState) (data : List Nat) (c : Bool) (nonce : List Nat) :
    MaxPacketSize = 1466
    ∧ ((writeModel sealFn st data c nonce).1 = none ↔
        st.remote = none ∨ MaxPacketSize < data.length)
    ∧ (∀ pkt dst, (writeModel sealFn st data c nonce).1 = some (pkt, dst) →
        data.length ≤ MaxPacketSize) := by
  refine ⟨rfl, ?_, ?_⟩
  · cases hr : st.remote with
    | none => simp [writeModel, hr]
    | some r =>
      by_cases hl : MaxPacketSize < data.length
      · simp [writeModel, hr, hl]
      · simp only [writeModel, hr, hl]
        split
        · simp_all
        · split <;> simp
  · intro pkt dst hw
    cases hr : st.remote with
    | none => simp [writeModel, hr] at hw
    | some r =>
      by_cases hl : MaxPacketSize < data.length
      · simp [writeModel, hr, hl] at hw
      · omega

/-- C3 witness: a 1467-byte plaintext (one over the code's budget) is
rejected on the plain transport. -/
theorem write_budget_amended_witness :
    (writeModel (fun _ _ _ => []) stPlain (List.replicate 1467 0) false
      []).1 = none :=
  ((write_budget_amended (fun _ _ _ => []) stPlain (List.replicate 1467 0)
      false []).2.1).mpr (Or.inr (by decide))

/-- C9 amended.  Records produced on one transport carry strictly
increasing sequence numbers as long as fewer than 2^32 records have
been produced; the counter is a wrapping uint32, so record number 2^32
reuses sequence 0 (see the counterexample).  Each record takes its
sequence from the mutex-protected fetch-and-increment, so concurrent
senders see an atomic counter and this ordering applies to any
schedule. -/
theorem sequence_strictly_increasing_amended (i j : Nat)
    (hij : i < j) (hj : j < U32) : recordSeq i < recordSeq j := by
  simp only [recordSeq, fetchInc, counterState_eq]
  rw [Nat.mod_eq_of_lt (lt_trans hij hj), Nat.mod_eq_of_lt hj]
  exact hij

/-- C9 witness: the first two records on a transport. -/
theorem sequence_strictly_increasing_amended_witness :
    recordSeq 0 < recordSeq 1 :=
  sequence_strictly_increasing_amended 0 1 (by decide) (by decide)

/-- C10.  The claim says a DATA record whose sequence passed the
replay check but failed authentication leaves its bit set, so a second
record with the same sequence is rejected as a replay.  At sequence 0
on a fresh window this fails: the first DATA (seq 0) passes the check
and fails decryption, but the second DATA with seq 0 is not rejected
as a replay — the `head == 0 && seq == 0` fast path accepts it again
and it proceeds to decryption.  Same root cause as the C2 bug. -/
theorem replay_no_rollback_seq0_bug :
    (readModel opnFail stPlain dataSeq0 addrB 2000).2.1 = .err .decryptFail ∧
    (readModel opnFail (readModel opnFail stPlain dataSeq0 addrB 2000).2.2
        dataSeq0 addrB 2000).2.1 = .err .decryptFail := by
  constructor <;> decide

end VpnTurbo
